import Mathlib

/-!
A verification development for the `pdf-compressor.js` pipeline of the
awesome-pdf-compressor repository.  The JavaScript source is shallowly
embedded: pure decision logic becomes Lean functions over natural-number
byte sizes, file contents become byte lists (`List Bool`, only lengths
matter), the slice of the file system a page touches becomes an explicit
record threaded through the steps, and promise rejections become
`Except String`.  Every definition is transcribed from the source file
(line numbers cited in the doc comments); the one definition written from
the specification's words instead is clearly marked.
-/

namespace PdfCompressor

/-- File contents are byte lists; `length` is the byte size `fs.stat` reports. -/
abbrev FileBytes := List Bool

/-- Tool identifiers: exactly the keys of the `bestToolCounts` object created at
line 64 of `pdf-compressor.js`, including the kept-original sentinel. -/
inductive Tool
  | gs
  | qpdf
  | mutool
  | original
deriving DecidableEq, Repr

/-- One entry of the `compressionResults` array built at lines 264-268:
a tool identifier paired with the byte size measured for it. -/
abbrev Candidate := Tool × Nat

/-- Model of `compressionResults.reduce((best, current) => current.size < best.size
? current : best)` at lines 270-272: a left fold whose accumulator starts at the
first array element (JavaScript `reduce` with no initial value). -/
def reduceBest : Candidate → List Candidate → Candidate
  | best, [] => best
  | best, current :: rest =>
      reduceBest (if current.2 < best.2 then current else best) rest

/-- The `bestResult` computed at lines 270-272: the reduce runs with the `gs`
entry as the initial accumulator and the `qpdf` and `mutool` entries remaining. -/
def bestResult (gsSize qpdfSize mutoolSize : Nat) : Candidate :=
  reduceBest (Tool.gs, gsSize) [(Tool.qpdf, qpdfSize), (Tool.mutool, mutoolSize)]

/-- Modelled from the spec's words (section 4.2 step 4, claim C7): select the
candidate of minimum final size; on ties the first-configured tool in the fixed
order gs, qpdf, mutool wins.  This is the specification-side definition to be
compared with `bestResult`, which is transcribed from the code. -/
def specFirstMinSelection (gsSize qpdfSize mutoolSize : Nat) : Candidate :=
  let m := min gsSize (min qpdfSize mutoolSize)
  (if gsSize = m then Tool.gs else if qpdfSize = m then Tool.qpdf else Tool.mutool, m)

/-- The object `compressPage` resolves with (lines 277-304), flattened: `size`,
`originalSize` and `usedOriginal` are the top-level fields, the `gs`, `qpdf`,
`mutool` and `bestTool` fields of the nested `compressionStats` object follow. -/
structure PageResult where
  size : Nat
  originalSize : Nat
  usedOriginal : Bool
  gsSize : Nat
  qpdfSize : Nat
  mutoolSize : Nat
  bestTool : Tool
deriving DecidableEq, Repr

/-- The slice of the file system one `compressPage` call touches: the page's
extracted input temp file, the page's output path, and the transient
`outputPath + ".tmp"` file used by the qpdf and mutool passes.  `none` models
an absent file. -/
structure PageFS where
  inputFile : FileBytes
  outputFile : Option FileBytes
  tmpFile : Option FileBytes
deriving DecidableEq, Repr

/-- An external tool as a transformation on file contents; `none` models a
non-zero exit status or a failure to launch the process. -/
abbrev ToolFun := FileBytes → Option FileBytes

/-- Model of `optimizeWithQpdf` (lines 317-356) and `optimizeWithMutool`
(lines 359-393), which `compressPage` calls with inputFile = outputFile = the
page output path: the tool reads the current output file, writes its result to
the `.tmp` sibling, and on exit code 0 renames the temp file over the output
path; on failure the temp file is unlinked and the promise rejects. -/
def optimizeInPlace (toolFun : ToolFun) (fs : PageFS) : Except String PageFS :=
  match fs.outputFile with
  | none => Except.error "missing output file"
  | some content =>
      match toolFun content with
      | some bytes =>
          let written : PageFS := { fs with tmpFile := some bytes }
          Except.ok { written with outputFile := written.tmpFile, tmpFile := none }
      | none => Except.error "tool failed"

/-- Model of `compressPage` (lines 115-314).  `originalSize` is measured from
the input temp file (lines 122-123).  Ghostscript writes the output path
directly (line 231); a non-zero exit or launch failure rejects the promise
(lines 242-244 and 309-311).  The qpdf and mutool passes then rewrite the same
output path in place (lines 254-261), each size being measured by re-stat'ing
that path, and a failure of either pass is caught at lines 306-308 and rejects
the promise.  When all three steps succeed, `bestResult` is compared with
`originalSize` (line 274): if not smaller, the original input is copied over
the output path and the kept-original sentinel is recorded (lines 276-287);
otherwise the file most recently written to the output path (the mutool pass's
result) is left there and `bestResult` is recorded (lines 288-305). -/
def compressPageRun (gsFun qpdfFun mutoolFun : ToolFun) (input : FileBytes) :
    Except String (PageFS × PageResult) :=
  let originalSize := input.length
  match gsFun input with
  | none => Except.error "Ghostscript failed"
  | some gsOut =>
      let fs1 : PageFS := { inputFile := input, outputFile := some gsOut, tmpFile := none }
      let gsSize := gsOut.length
      match optimizeInPlace qpdfFun fs1 with
      | Except.error e => Except.error ("Processing failed: " ++ e)
      | Except.ok fs2 =>
          let qpdfSize := (fs2.outputFile.getD []).length
          match optimizeInPlace mutoolFun fs2 with
          | Except.error e => Except.error ("Processing failed: " ++ e)
          | Except.ok fs3 =>
              let mutoolSize := (fs3.outputFile.getD []).length
              let best := bestResult gsSize qpdfSize mutoolSize
              if best.2 ≥ originalSize then
                Except.ok ({ fs3 with outputFile := some input },
                  { size := originalSize, originalSize := originalSize,
                    usedOriginal := true, gsSize := gsSize, qpdfSize := qpdfSize,
                    mutoolSize := mutoolSize, bestTool := Tool.original })
              else
                Except.ok (fs3,
                  { size := best.2, originalSize := originalSize,
                    usedOriginal := false, gsSize := gsSize, qpdfSize := qpdfSize,
                    mutoolSize := mutoolSize, bestTool := best.1 })

/-- The `batchStats` accumulator created at lines 61-65: two byte totals and
the four win counters of the `bestToolCounts` object. -/
structure BatchStats where
  totalOriginalSize : Nat
  totalCompressedSize : Nat
  gsCount : Nat
  qpdfCount : Nat
  mutoolCount : Nat
  originalCount : Nat
deriving DecidableEq, Repr

/-- The freshly initialised accumulator of lines 61-65 (all fields zero). -/
def emptyBatchStats : BatchStats :=
  ⟨0, 0, 0, 0, 0, 0⟩

/-- The increment `batchStats.bestToolCounts[result.compressionStats.bestTool]++`
at line 84, one counter per tool identifier. -/
def bumpCount (stats : BatchStats) : Tool → BatchStats
  | Tool.gs => { stats with gsCount := stats.gsCount + 1 }
  | Tool.qpdf => { stats with qpdfCount := stats.qpdfCount + 1 }
  | Tool.mutool => { stats with mutoolCount := stats.mutoolCount + 1 }
  | Tool.original => { stats with originalCount := stats.originalCount + 1 }

/-- The `.then` handler at lines 81-86: add the page's original and chosen
sizes to the batch totals and bump the winning tool's counter. -/
def recordResult (stats : BatchStats) (result : PageResult) : BatchStats :=
  bumpCount
    { stats with
        totalOriginalSize := stats.totalOriginalSize + result.originalSize,
        totalCompressedSize := stats.totalCompressedSize + result.size }
    result.bestTool

/-- Model of `processBatch` consuming its pages' settled promises in order
(lines 79-97): a fulfilled promise records its result into the accumulator,
while a rejected promise propagates through `await Promise.all` and makes
`processBatch` itself reject - there is no rejection handler anywhere on the
chain, so the first error aborts the batch. -/
def processBatchExcept :
    List (Except String (PageFS × PageResult)) → BatchStats → Except String BatchStats
  | [], stats => Except.ok stats
  | r :: rest, stats =>
      match r with
      | Except.error e => Except.error e
      | Except.ok pr => processBatchExcept rest (recordResult stats pr.2)

/-- The write decision of `mergePDFs` at lines 428-434: the merged bytes are
written to the output file only when strictly smaller than the original
whole-document file; otherwise the original input file is copied there. -/
def mergeOutput (mergedBytes originalBytes : FileBytes) : FileBytes :=
  if mergedBytes.length < originalBytes.length then mergedBytes else originalBytes

/-- Main's re-verification at lines 636-644, applied to the file `mergePDFs`
just wrote: if its size is still at least the original's, the original input
is copied over the final output path. -/
def finalMergedOutput (mergedBytes originalBytes : FileBytes) : FileBytes :=
  let written := mergeOutput mergedBytes originalBytes
  if written.length ≥ originalBytes.length then originalBytes else written

/-- The IEEE-754 double values the ratio expression can take: an ordinary
finite value, NaN, or negative infinity. -/
inductive JsNumber
  | finite (q : ℚ)
  | nan
  | negInf
deriving DecidableEq

/-- Value of the JavaScript expression `(1 - compressed / original) * 100`
(lines 103 and 664) at nonnegative integer byte counts, following IEEE-754
division: `0 / 0` is NaN, and `c / 0` for positive `c` is positive infinity,
which makes the whole expression negative infinity.  There is no guard around
the expression in the source. -/
def ratioExprValue (compressed original : Nat) : JsNumber :=
  if original = 0 then
    (if compressed = 0 then JsNumber.nan else JsNumber.negInf)
  else JsNumber.finite ((1 - (compressed : ℚ) / (original : ℚ)) * 100)

/-- The batch statistics log line at line 103: the ratio of the accumulated
batch totals, computed unconditionally. -/
def batchRatioLineValue (stats : BatchStats) : JsNumber :=
  ratioExprValue stats.totalCompressedSize stats.totalOriginalSize

/-- The final summary log line at line 664: the ratio of the accumulated
compressed total to the measured size of the whole input file, computed
unconditionally. -/
def summaryRatioLineValue (totalCompressedSize actualOriginalSize : Nat) : JsNumber :=
  ratioExprValue totalCompressedSize actualOriginalSize

/-- The successive fallible steps of `main`'s try block (lines 561-666), in
program order: directory setup (581-584), loading the input document (587),
the batch loop (606-618), writing the input metadata file (623-626), the merge
and its size re-verification (629-650), removing the temp directory (653),
removing the pages directory when requested (656-658), and the summary
logging (660-666). -/
inductive MainStep
  | setupDirs
  | loadDocument
  | processBatches
  | writeInputMetadata
  | mergeAndVerify
  | removeTempDir
  | removePagesDir
  | printSummary
deriving DecidableEq, Repr

/-- Program-order position of each step of `main`'s try block. -/
def stepIndex : MainStep → Nat
  | MainStep.setupDirs => 0
  | MainStep.loadDocument => 1
  | MainStep.processBatches => 2
  | MainStep.writeInputMetadata => 3
  | MainStep.mergeAndVerify => 4
  | MainStep.removeTempDir => 5
  | MainStep.removePagesDir => 6
  | MainStep.printSummary => 7

/-- Whether `fs.rm(tempDir, ...)` at line 653 executes, as a function of the
first step of the try block to throw (`none` when the whole block succeeds).
The catch block at lines 668-671 only logs and calls `process.exit(1)`; it
performs no cleanup, so the removal runs exactly when every step before it
succeeded. -/
def tempDirRemoved (firstFailure : Option MainStep) : Bool :=
  match firstFailure with
  | none => true
  | some s => decide (stepIndex MainStep.removeTempDir < stepIndex s)

/-- File names as character lists (the stdlib `String` primitives do not
reduce under `decide`, so names are modelled by their character data). -/
abbrev FileName := List Char

/-- The maximal run of digits starting at the head of the list. -/
def digitRun : List Char → List Char
  | [] => []
  | c :: cs => if c.isDigit then c :: digitRun cs else []

/-- Model of `name.match(/\d+/)`: the first run of digits anywhere in the
name, or `none` when the name has no digit (in which case the source's
`[0]` access throws; page output files always carry digits). -/
def firstDigitRun : List Char → Option (List Char)
  | [] => none
  | c :: cs => if c.isDigit then some (c :: digitRun cs) else firstDigitRun cs

/-- Decimal value of a digit list, as `parseInt` computes it on the matched
digit-only string. -/
def digitsToNat (ds : List Char) : Nat :=
  ds.foldl (fun acc c => acc * 10 + (c.toNat - 48)) 0

/-- The numeric sort key of lines 404-405: `parseInt(name.match(/\d+/)[0])`,
defaulting to 0 where the source would throw (never for `page_NNNNN.pdf`). -/
def pageNumberKey (name : FileName) : Nat :=
  ((firstDigitRun name).map digitsToNat).getD 0

/-- The `.pdf` extension characters used by the filter at line 402. -/
def pdfExt : FileName :=
  ['.', 'p', 'd', 'f']

/-- Model of lines 400-407: keep the `.pdf` files of the directory listing and
sort them by the numeric key.  `Array.prototype.sort` with the comparator
`numA - numB` is a stable sort ordering by the key, modelled by the stable
`List.insertionSort`. -/
def sortedPdfPages (files : List FileName) : List FileName :=
  List.insertionSort (fun a b => pageNumberKey a ≤ pageNumberKey b)
    (files.filter (fun f => List.isSuffixOf pdfExt f))

/-- Fuel-indexed model of the batch loop at lines 606-610:
`for (let i = 0; i < totalPages; i += batchSize)` producing the inclusive page
range `[i + 1, min(i + batchSize, totalPages)]` each iteration.  One fuel unit
is spent per iteration; with `batchSize ≥ 1` the loop runs at most
`totalPages` iterations, so fuel `totalPages` is never exhausted (with
`batchSize = 0` the source loop does not terminate at all). -/
def batchLoop : Nat → Nat → Nat → Nat → List (Nat × Nat)
  | 0, _, _, _ => []
  | fuel + 1, i, totalPages, batchSize =>
      if i < totalPages then
        (i + 1, min (i + batchSize) totalPages) :: batchLoop fuel (i + batchSize) totalPages batchSize
      else []

/-- The list of batch ranges `main` iterates over, in order. -/
def batchRanges (totalPages batchSize : Nat) : List (Nat × Nat) :=
  batchLoop totalPages 0 totalPages batchSize

/-- The pages a batch covers: `processBatch` iterates `i` from `startPage` to
`endPage` (lines 67-93; the extra bound `i <= pdfDoc.getPageCount()` never
binds because `endPage <= totalPages` already). -/
def batchPages (r : Nat × Nat) : List Nat :=
  List.range' r.1 (r.2 + 1 - r.1)

/-- Statistics of a batch as `processBatch` accumulates them: fold the
recorded page results into a fresh accumulator. -/
def batchStatsOf (results : List PageResult) : BatchStats :=
  results.foldl recordResult emptyBatchStats

/-- The aggregation of lines 613-617: add a batch's totals and per-tool
counts into the document accumulator, field by field. -/
def mergeStats (a b : BatchStats) : BatchStats :=
  ⟨a.totalOriginalSize + b.totalOriginalSize,
    a.totalCompressedSize + b.totalCompressedSize,
    a.gsCount + b.gsCount, a.qpdfCount + b.qpdfCount,
    a.mutoolCount + b.mutoolCount, a.originalCount + b.originalCount⟩

/-- Document-level statistics: `main` runs the batches in order and merges
each batch's statistics into the document accumulator (lines 606-618).
`pageResult` gives the settled result of each page number. -/
def docStatsOf (pageResult : Nat → PageResult) (totalPages batchSize : Nat) : BatchStats :=
  (batchRanges totalPages batchSize).foldl
    (fun acc r => mergeStats acc (batchStatsOf ((batchPages r).map pageResult)))
    emptyBatchStats

/-- Sum of the four per-tool win counters of an accumulator. -/
def countsTotal (stats : BatchStats) : Nat :=
  stats.gsCount + stats.qpdfCount + stats.mutoolCount + stats.originalCount

/-- C1: evaluation of `compressPage` at the failing input.  With a 2-byte
page for which the gs stage yields 1 byte, the qpdf stage 2 bytes and the
mutool stage 3 bytes, the winning candidate is gs at 1 byte, so the fallback
at line 274 does not trigger; but the file actually left at the page output
path is the mutool stage's 3-byte output, strictly larger than the 2-byte
input, while the recorded result size is 1.  The emitted page file therefore
violates the per-page non-growth invariant the spec states. -/
theorem c1_page_output_can_exceed_input :
    (compressPageRun (fun _ => some [true]) (fun _ => some [true, true])
        (fun _ => some [true, true, true]) [true, true]).toOption.map
      (fun r => ((r.1.outputFile.getD []).length, r.2.originalSize, r.2.size, r.2.bestTool))
      = some (3, 2, 1, Tool.gs) := rfl

/-- C2 counterexample: a page whose Ghostscript invocation fails does not
produce a fallback result; `compressPage` rejects, and the rejection makes the
batch fold reject as well, contradicting the claim that every tool failing
still yields an original-file fallback result for the page. -/
theorem c2_gs_failure_rejects_page :
    compressPageRun (fun _ => none) (fun f => some f) (fun f => some f) [true]
        = Except.error "Ghostscript failed" ∧
      processBatchExcept
          [compressPageRun (fun _ => none) (fun f => some f) (fun f => some f) [true]]
          emptyBatchStats
        = Except.error "Ghostscript failed" :=
  ⟨rfl, rfl⟩

/-- Helper: a rejected page promise anywhere in the batch makes the batch fold
reject (there is no rejection handler in `processBatch`). -/
theorem processBatchExcept_not_ok :
    ∀ (rs : List (Except String (PageFS × PageResult))) (stats : BatchStats) (e : String),
      Except.error e ∈ rs → (processBatchExcept rs stats).isOk = false
  | [], _, _, hmem => absurd hmem (List.not_mem_nil _)
  | r :: rest, stats, e, hmem => by
      rcases List.mem_cons.mp hmem with hr | hr
      · rw [← hr]
        rfl
      · cases r with
        | error e2 => rfl
        | ok pr => exact processBatchExcept_not_ok rest (recordResult stats pr.2) e hr

/-- C2 amended: a tool failure is not absorbed.  When the Ghostscript stage of
a page fails, `compressPage` rejects with the Ghostscript error instead of
falling back to the original file, and a batch containing that settled page
promise rejects as a whole (the rejection then reaches `main`'s catch, which
exits the process). -/
theorem c2_tool_failure_aborts_batch (gsFun qpdfFun mutoolFun : ToolFun) (input : FileBytes)
    (rs : List (Except String (PageFS × PageResult))) (stats : BatchStats)
    (hgs : gsFun input = none)
    (hmem : compressPageRun gsFun qpdfFun mutoolFun input ∈ rs) :
    compressPageRun gsFun qpdfFun mutoolFun input = Except.error "Ghostscript failed" ∧
      (processBatchExcept rs stats).isOk = false := by
  have hpage : compressPageRun gsFun qpdfFun mutoolFun input
      = Except.error "Ghostscript failed" := by
    unfold compressPageRun
    rw [hgs]
  rw [hpage] at hmem
  exact ⟨hpage, processBatchExcept_not_ok rs stats _ hmem⟩

/-- C2 witness: the amended theorem applied to a concrete one-page batch whose
Ghostscript invocation fails. -/
theorem c2_tool_failure_aborts_batch_witness :
    compressPageRun (fun _ => none) (fun f => some f) (fun f => some f) [false]
        = Except.error "Ghostscript failed" ∧
      (processBatchExcept
          [compressPageRun (fun _ => none) (fun f => some f) (fun f => some f) [false]]
          emptyBatchStats).isOk = false :=
  c2_tool_failure_aborts_batch (fun _ => none) (fun f => some f) (fun f => some f) [false]
    _ emptyBatchStats rfl (List.mem_singleton.mpr rfl)

/-- C3 counterexample: the qpdf candidate size recorded by `compressPage` is
not the size of qpdf applied to the original page input.  With gs appending
one byte and qpdf doubling its input, a 1-byte page records a qpdf candidate
of 4 bytes (qpdf ran on gs's 2-byte output), while qpdf applied to the
original input would measure 2 bytes. -/
theorem c3_qpdf_candidate_not_from_original :
    (compressPageRun (fun f => some (f ++ [true])) (fun f => some (f ++ f)) (fun f => some f)
        [true]).toOption.map (fun r => r.2.qpdfSize)
      ≠ (((fun (f : FileBytes) => some (f ++ f)) [true]).map List.length) := by
  decide

/-- C3 amended: the three tools run as one sequential in-place chain, not
concurrently against the same input.  Ghostscript reads the original page
input; the qpdf stage reads Ghostscript's output; the mutool stage reads the
qpdf stage's output; and the recorded candidate sizes are exactly the sizes
of the three successive stage outputs of this single pipeline. -/
theorem c3_sequential_chain_sizes (gsFun qpdfFun mutoolFun : ToolFun)
    (input gsOut qpdfOut mutoolOut : FileBytes)
    (h1 : gsFun input = some gsOut) (h2 : qpdfFun gsOut = some qpdfOut)
    (h3 : mutoolFun qpdfOut = some mutoolOut) :
    (compressPageRun gsFun qpdfFun mutoolFun input).toOption.map
        (fun r => (r.2.gsSize, r.2.qpdfSize, r.2.mutoolSize))
      = some (gsOut.length, qpdfOut.length, mutoolOut.length) := by
  unfold compressPageRun optimizeInPlace
  rw [h1]
  simp only [h2, h3]
  split <;> rfl

/-- C3 witness: the amended theorem applied to concrete stage outputs. -/
theorem c3_sequential_chain_sizes_witness :
    (compressPageRun (fun _ => some [true]) (fun _ => some []) (fun _ => some [true, true])
        [true, true]).toOption.map (fun r => (r.2.gsSize, r.2.qpdfSize, r.2.mutoolSize))
      = some (1, 0, 2) :=
  c3_sequential_chain_sizes (fun _ => some [true]) (fun _ => some [])
    (fun _ => some [true, true]) [true, true] [true] [] [true, true] rfl rfl rfl

/-- C4: the document-level fallback holds.  The final merged output file is
never larger than the original whole-document input; when the merged bytes are
at least as large as the original the output is the original file itself, and
when they are strictly smaller the merged bytes are what is written. -/
theorem c4_document_fallback_non_growth (mergedBytes originalBytes : FileBytes) :
    (finalMergedOutput mergedBytes originalBytes).length ≤ originalBytes.length ∧
      (originalBytes.length ≤ mergedBytes.length →
        finalMergedOutput mergedBytes originalBytes = originalBytes) ∧
      (mergedBytes.length < originalBytes.length →
        finalMergedOutput mergedBytes originalBytes = mergedBytes) := by
  unfold finalMergedOutput mergeOutput
  by_cases h : mergedBytes.length < originalBytes.length
  · simp only [if_pos h]
    rw [if_neg (by omega)]
    exact ⟨Nat.le_of_lt h, fun hge => absurd h (by omega), fun _ => rfl⟩
  · simp only [if_neg h]
    rw [if_pos (le_refl _)]
    exact ⟨le_refl _, fun _ => rfl, fun hlt => absurd hlt h⟩

/-- C4 witness: the non-growth theorem applied to a larger-than-original merge
and to a smaller-than-original merge. -/
theorem c4_document_fallback_non_growth_witness :
    finalMergedOutput [true, true] [true] = [true] ∧ finalMergedOutput [] [true] = [] :=
  ⟨(c4_document_fallback_non_growth [true, true] [true]).2.1 (by decide),
    (c4_document_fallback_non_growth [] [true]).2.2 (by decide)⟩

/-- C5 counterexample: with accumulated original size 0 the batch statistics
line and the final summary line both print NaN; nothing in the source guards
the division or omits the ratio. -/
theorem c5_zero_size_ratio_is_nan :
    batchRatioLineValue
        { totalOriginalSize := 0, totalCompressedSize := 0, gsCount := 0,
          qpdfCount := 0, mutoolCount := 0, originalCount := 1 } = JsNumber.nan ∧
      summaryRatioLineValue 0 0 = JsNumber.nan :=
  ⟨rfl, rfl⟩

/-- C5 amended: the ratio computation is unguarded.  Whenever the accumulated
original size is 0, the batch ratio line evaluates to NaN (when the compressed
total is also 0) or to negative infinity (otherwise), and that value is what
reaches the log output. -/
theorem c5_unguarded_ratio_at_zero (stats : BatchStats)
    (h : stats.totalOriginalSize = 0) :
    batchRatioLineValue stats
      = (if stats.totalCompressedSize = 0 then JsNumber.nan else JsNumber.negInf) := by
  unfold batchRatioLineValue ratioExprValue
  rw [h]
  simp

/-- C5 witness: the amended theorem applied to a zero-original accumulator
with a positive compressed total. -/
theorem c5_unguarded_ratio_at_zero_witness :
    batchRatioLineValue
        { totalOriginalSize := 0, totalCompressedSize := 5, gsCount := 0,
          qpdfCount := 0, mutoolCount := 0, originalCount := 1 } = JsNumber.negInf := by
  have h := c5_unguarded_ratio_at_zero
    { totalOriginalSize := 0, totalCompressedSize := 5, gsCount := 0,
      qpdfCount := 0, mutoolCount := 0, originalCount := 1 } rfl
  simpa using h

/-- C6 counterexample: a failure during the merge step reaches `main`'s catch
block before `fs.rm(tempDir, ...)` has run, and the catch block performs no
cleanup, so the private temp directory survives that failure path. -/
theorem c6_temp_dir_survives_merge_failure :
    tempDirRemoved (some MainStep.mergeAndVerify) = false := rfl

/-- C6 amended: the temp directory is removed on the success path and on the
two failure paths that start after the removal (pages-directory cleanup and
summary logging), and on no other failure path: any step of the try block
failing at or before the removal leaves the temp directory behind. -/
theorem c6_temp_dir_removed_iff_late_failure (firstFailure : Option MainStep) :
    tempDirRemoved firstFailure = true ↔
      (firstFailure = none ∨ firstFailure = some MainStep.removePagesDir ∨
        firstFailure = some MainStep.printSummary) := by
  cases firstFailure with
  | none => simp [tempDirRemoved]
  | some s => cases s <;> simp [tempDirRemoved, stepIndex]

/-- C6 witness: the amended characterisation applied on the success path. -/
theorem c6_temp_dir_removed_iff_late_failure_witness :
    tempDirRemoved none = true :=
  (c6_temp_dir_removed_iff_late_failure none).mpr (Or.inl rfl)

/-- C7: the reduce at lines 270-272 implements exactly the spec's selection
policy - it returns the minimum of the three candidate sizes, and on ties the
first tool in the configured order gs, qpdf, mutool.  Both sides are pure
functions of the sizes, so repeated runs on the same sizes select the same
winner. -/
theorem c7_first_min_tie_break (gsSize qpdfSize mutoolSize : Nat) :
    bestResult gsSize qpdfSize mutoolSize = specFirstMinSelection gsSize qpdfSize mutoolSize := by
  unfold bestResult specFirstMinSelection
  simp only [reduceBest]
  dsimp only
  by_cases h1 : qpdfSize < gsSize
  · rw [if_pos h1]
    dsimp only
    by_cases h2 : mutoolSize < qpdfSize
    · rw [if_pos h2]
      have hmin : min gsSize (min qpdfSize mutoolSize) = mutoolSize := by omega
      rw [hmin, if_neg (by omega), if_neg (by omega)]
    · rw [if_neg h2]
      have hmin : min gsSize (min qpdfSize mutoolSize) = qpdfSize := by omega
      rw [hmin, if_neg (by omega), if_pos rfl]
  · rw [if_neg h1]
    dsimp only
    by_cases h3 : mutoolSize < gsSize
    · rw [if_pos h3]
      have hmin : min gsSize (min qpdfSize mutoolSize) = mutoolSize := by omega
      rw [hmin, if_neg (by omega), if_neg (by omega)]
    · rw [if_neg h3]
      have hmin : min gsSize (min qpdfSize mutoolSize) = gsSize := by omega
      rw [hmin, if_pos rfl]

/-- Helper: `mergeStats` with the empty accumulator on the left is the
identity. -/
theorem mergeStats_empty_left (a : BatchStats) : mergeStats emptyBatchStats a = a := by
  simp [mergeStats, emptyBatchStats]

/-- Helper: `mergeStats` is associative (all fields add). -/
theorem mergeStats_assoc (a b c : BatchStats) :
    mergeStats (mergeStats a b) c = mergeStats a (mergeStats b c) := by
  simp only [mergeStats, BatchStats.mk.injEq]
  omega

/-- Helper: recording a result into an accumulator is merging in the
single-result statistics. -/
theorem recordResult_eq_merge (stats : BatchStats) (result : PageResult) :
    recordResult stats result = mergeStats stats (recordResult emptyBatchStats result) := by
  rcases result with ⟨rsize, rorig, ruo, rg, rq, rm, rtool⟩
  rcases stats with ⟨a, b, c, d, e, f⟩
  cases rtool <;>
    simp [recordResult, bumpCount, mergeStats, emptyBatchStats]

/-- Helper: folding page results from any starting accumulator merges the
fold-from-empty statistics into it. -/
theorem foldl_recordResult_eq_merge (results : List PageResult) (stats : BatchStats) :
    results.foldl recordResult stats = mergeStats stats (batchStatsOf results) := by
  induction results generalizing stats with
  | nil => simp [batchStatsOf, mergeStats, emptyBatchStats]
  | cons r rest ih =>
      simp only [List.foldl_cons, batchStatsOf] at *
      rw [ih (recordResult stats r), ih (recordResult emptyBatchStats r),
        recordResult_eq_merge stats r, mergeStats_assoc]

/-- Helper: batch statistics split across list concatenation. -/
theorem batchStatsOf_append (l1 l2 : List PageResult) :
    batchStatsOf (l1 ++ l2) = mergeStats (batchStatsOf l1) (batchStatsOf l2) := by
  simp only [batchStatsOf, List.foldl_append]
  exact foldl_recordResult_eq_merge l2 (l1.foldl recordResult emptyBatchStats)

/-- Helper: recording one result bumps the total win count by exactly one. -/
theorem countsTotal_recordResult (stats : BatchStats) (result : PageResult) :
    countsTotal (recordResult stats result) = countsTotal stats + 1 := by
  rcases result with ⟨rsize, rorig, ruo, rg, rq, rm, rtool⟩
  rcases stats with ⟨a, b, c, d, e, f⟩
  cases rtool <;>
    simp [recordResult, bumpCount, countsTotal] <;> omega

/-- Helper: total win counts of a fold from an arbitrary accumulator. -/
theorem countsTotal_foldl (results : List PageResult) (stats : BatchStats) :
    countsTotal (results.foldl recordResult stats) = countsTotal stats + results.length := by
  induction results generalizing stats with
  | nil => simp
  | cons r rest ih =>
      simp only [List.foldl_cons, List.length_cons]
      rw [ih (recordResult stats r), countsTotal_recordResult]
      omega

/-- C10: win-count conservation.  Recording a page result increments exactly
one tool's win counter, so the per-tool win counts of a batch accumulator sum
to the number of page results recorded into it, and merging accumulators (as
`main` does per batch) adds the totals, preserving the equality at document
level. -/
theorem c10_win_count_conservation :
    (∀ (stats : BatchStats) (result : PageResult),
        countsTotal (recordResult stats result) = countsTotal stats + 1) ∧
      (∀ results : List PageResult, countsTotal (batchStatsOf results) = results.length) ∧
      (∀ a b : BatchStats, countsTotal (mergeStats a b) = countsTotal a + countsTotal b) := by
  refine ⟨countsTotal_recordResult, fun results => ?_, fun a b => ?_⟩
  · rw [batchStatsOf, countsTotal_foldl]
    simp [countsTotal, emptyBatchStats]
  · simp only [mergeStats, countsTotal]
    omega

/-- C8: the merge step orders page files by the numeric value of the first
digit run in each file name, in ascending order; the order is independent of
the order the directory listing presents the files in (hence of page
completion order) as long as the numeric keys are distinct; and the result is
numeric, not lexicographic: `page_10.pdf` sorts after `page_2.pdf` even though
it precedes it lexicographically. -/
theorem c8_numeric_merge_order (files otherOrder : List FileName)
    (hperm : files.Perm otherOrder)
    (hkeys : ((files.filter (fun f => List.isSuffixOf pdfExt f)).map pageNumberKey).Nodup) :
    (sortedPdfPages files).Pairwise (fun a b => pageNumberKey a ≤ pageNumberKey b) ∧
      sortedPdfPages files = sortedPdfPages otherOrder ∧
      sortedPdfPages ["page_10.pdf".data, "page_2.pdf".data]
        = ["page_2.pdf".data, "page_10.pdf".data] := by
  haveI htot : IsTotal FileName (fun a b => pageNumberKey a ≤ pageNumberKey b) :=
    ⟨fun a b => Nat.le_total (pageNumberKey a) (pageNumberKey b)⟩
  haveI htrans : IsTrans FileName (fun a b => pageNumberKey a ≤ pageNumberKey b) :=
    ⟨fun a b c hab hbc => Nat.le_trans hab hbc⟩
  have hsorted1 : (sortedPdfPages files).Sorted (fun a b => pageNumberKey a ≤ pageNumberKey b) :=
    List.sorted_insertionSort _ _
  have hsorted2 :
      (sortedPdfPages otherOrder).Sorted (fun a b => pageNumberKey a ≤ pageNumberKey b) :=
    List.sorted_insertionSort _ _
  refine ⟨hsorted1, ?_, by decide⟩
  haveI : IsAntisymm FileName (fun a b => pageNumberKey a < pageNumberKey b) :=
    ⟨fun a b h1 h2 => absurd (Nat.lt_trans h1 h2) (Nat.lt_irrefl _)⟩
  have hp1 : (sortedPdfPages files).Perm (files.filter (fun f => List.isSuffixOf pdfExt f)) :=
    List.perm_insertionSort _ _
  have hp2 :
      (sortedPdfPages otherOrder).Perm (otherOrder.filter (fun f => List.isSuffixOf pdfExt f)) :=
    List.perm_insertionSort _ _
  have hpf : (files.filter (fun f => List.isSuffixOf pdfExt f)).Perm
      (otherOrder.filter (fun f => List.isSuffixOf pdfExt f)) := hperm.filter _
  have hp : (sortedPdfPages files).Perm (sortedPdfPages otherOrder) :=
    (hp1.trans hpf).trans hp2.symm
  have hkeys1 : ((sortedPdfPages files).map pageNumberKey).Nodup :=
    (hp1.map pageNumberKey).nodup_iff.mpr hkeys
  have hkeys2 : ((sortedPdfPages otherOrder).map pageNumberKey).Nodup :=
    ((hp.map pageNumberKey).symm.nodup_iff).mpr hkeys1
  have hne1 : (sortedPdfPages files).Pairwise (fun a b => pageNumberKey a ≠ pageNumberKey b) :=
    List.pairwise_map.mp hkeys1
  have hne2 :
      (sortedPdfPages otherOrder).Pairwise (fun a b => pageNumberKey a ≠ pageNumberKey b) :=
    List.pairwise_map.mp hkeys2
  have hstrict1 :
      (sortedPdfPages files).Sorted (fun a b => pageNumberKey a < pageNumberKey b) :=
    (hsorted1.and hne1).imp fun hab => Nat.lt_of_le_of_ne hab.1 hab.2
  have hstrict2 :
      (sortedPdfPages otherOrder).Sorted (fun a b => pageNumberKey a < pageNumberKey b) :=
    (hsorted2.and hne2).imp fun hab => Nat.lt_of_le_of_ne hab.1 hab.2
  exact List.eq_of_perm_of_sorted hp hstrict1 hstrict2

/-- C8 witness: two listing orders of the same two page files produce the same
sorted result, with the hypotheses discharged concretely. -/
theorem c8_numeric_merge_order_witness :
    sortedPdfPages ["page_2.pdf".data, "page_10.pdf".data]
      = sortedPdfPages ["page_10.pdf".data, "page_2.pdf".data] :=
  (c8_numeric_merge_order ["page_2.pdf".data, "page_10.pdf".data]
    ["page_10.pdf".data, "page_2.pdf".data] (by decide) (by decide)).2.1

/-- Helper: once the loop index reaches the page count the batch loop stops,
whatever fuel remains. -/
theorem batchLoop_stop (fuel i totalPages batchSize : Nat) (h : ¬ i < totalPages) :
    batchLoop fuel i totalPages batchSize = [] := by
  cases fuel with
  | zero => rfl
  | succ fuel => simp [batchLoop, h]

/-- Helper: from loop index `i`, the batch ranges cover exactly the pages
`i + 1` through `totalPages`, in order and each exactly once. -/
theorem batchLoop_flatten (fuel i totalPages batchSize : Nat)
    (hbs : 1 ≤ batchSize) (hfuel : totalPages - i ≤ fuel) :
    ((batchLoop fuel i totalPages batchSize).map batchPages).flatten
      = List.range' (i + 1) (totalPages - i) := by
  induction fuel generalizing i with
  | zero =>
      have h0 : totalPages - i = 0 := Nat.le_zero.mp hfuel
      simp [batchLoop, h0]
  | succ fuel ih =>
      by_cases h : i < totalPages
      · simp only [batchLoop, if_pos h, List.map_cons, List.flatten_cons]
        by_cases h2 : i + batchSize < totalPages
        · rw [ih (i + batchSize) (by omega)]
          have hmin : min (i + batchSize) totalPages = i + batchSize := by omega
          rw [hmin]
          unfold batchPages
          have e1 : i + batchSize + 1 - (i + 1) = batchSize := by omega
          simp only [e1]
          have e2 := List.range'_append (i + 1) batchSize (totalPages - (i + batchSize)) 1
          have e3 : i + 1 + 1 * batchSize = i + batchSize + 1 := by omega
          rw [e3] at e2
          rw [e2]
          congr 1
          omega
        · rw [batchLoop_stop fuel (i + batchSize) totalPages batchSize (by omega)]
          have hmin : min (i + batchSize) totalPages = totalPages := by omega
          rw [hmin]
          unfold batchPages
          simp only [List.map_nil, List.flatten_nil, List.append_nil]
          congr 1
          omega
      · rw [batchLoop_stop (fuel + 1) i totalPages batchSize h]
        have h0 : totalPages - i = 0 := by omega
        simp [h0]

/-- Helper: the batch ranges of a whole run flatten to the full page range. -/
theorem batchRanges_flatten (totalPages batchSize : Nat) (hbs : 1 ≤ batchSize) :
    ((batchRanges totalPages batchSize).map batchPages).flatten = List.range' 1 totalPages := by
  have h := batchLoop_flatten totalPages 0 totalPages batchSize hbs (by omega)
  simpa using h

/-- Helper: no batch covers more than `batchSize` pages. -/
theorem batchLoop_len_le (fuel i totalPages batchSize : Nat) :
    ∀ r ∈ batchLoop fuel i totalPages batchSize, (batchPages r).length ≤ batchSize := by
  induction fuel generalizing i with
  | zero =>
      intro r hr
      simp [batchLoop] at hr
  | succ fuel ih =>
      intro r hr
      by_cases h : i < totalPages
      · simp only [batchLoop, if_pos h, List.mem_cons] at hr
        rcases hr with rfl | hr
        · simp only [batchPages, List.length_range']
          omega
        · exact ih (i + batchSize) r hr
      · rw [batchLoop_stop (fuel + 1) i totalPages batchSize h] at hr
        cases hr

/-- Helper: every batch except the last covers exactly `batchSize` pages. -/
theorem batchLoop_dropLast (fuel i totalPages batchSize : Nat)
    (hbs : 1 ≤ batchSize) (hfuel : totalPages - i ≤ fuel) :
    ∀ r ∈ (batchLoop fuel i totalPages batchSize).dropLast,
      (batchPages r).length = batchSize := by
  induction fuel generalizing i with
  | zero =>
      intro r hr
      simp [batchLoop] at hr
  | succ fuel ih =>
      intro r hr
      by_cases h : i < totalPages
      · simp only [batchLoop, if_pos h] at hr
        by_cases h2 : i + batchSize < totalPages
        · cases fuel with
          | zero => omega
          | succ fuel2 =>
              have hcons : batchLoop (fuel2 + 1) (i + batchSize) totalPages batchSize
                  = (i + batchSize + 1, min (i + batchSize + batchSize) totalPages)
                    :: batchLoop fuel2 (i + batchSize + batchSize) totalPages batchSize := by
                simp [batchLoop, h2]
              rw [hcons, List.dropLast_cons₂, List.mem_cons] at hr
              rcases hr with rfl | hr
              · simp only [batchPages, List.length_range']
                omega
              · rw [← hcons] at hr
                exact ih (i + batchSize) (by omega) r hr
        · rw [batchLoop_stop fuel (i + batchSize) totalPages batchSize (by omega)] at hr
          simp at hr
      · rw [batchLoop_stop (fuel + 1) i totalPages batchSize h] at hr
        cases hr

/-- Helper: merging the per-batch statistics batch by batch, as `main` does,
equals folding every page result of the full range into one accumulator. -/
theorem docStats_eq_unbatched (pageResult : Nat → PageResult) (totalPages batchSize : Nat)
    (hbs : 1 ≤ batchSize) :
    docStatsOf pageResult totalPages batchSize
      = batchStatsOf ((List.range' 1 totalPages).map pageResult) := by
  have key : ∀ (L : List (Nat × Nat)) (s : BatchStats),
      L.foldl (fun acc r => mergeStats acc (batchStatsOf ((batchPages r).map pageResult))) s
        = mergeStats s (batchStatsOf (((L.map batchPages).flatten).map pageResult)) := by
    intro L
    induction L with
    | nil =>
        intro s
        simp [batchStatsOf, mergeStats, emptyBatchStats]
    | cons r L ih =>
        intro s
        simp only [List.foldl_cons, List.map_cons, List.flatten_cons, List.map_append]
        rw [ih, batchStatsOf_append, ← mergeStats_assoc]
  have h2 := key (batchRanges totalPages batchSize) emptyBatchStats
  rw [docStatsOf, h2, mergeStats_empty_left, batchRanges_flatten totalPages batchSize hbs]

/-- C9: the batch loop partitions `[1, totalPages]` into consecutive batches:
flattening the batch ranges in loop order yields exactly the page list
`1, ..., totalPages` (every page in exactly one batch), no batch holds more
than `batchSize` pages, every batch except possibly the last holds exactly
`batchSize` pages, and the document-level statistics obtained by merging the
per-batch statistics equal the statistics of one unbatched fold over all
pages. -/
theorem c9_batch_partitioning (totalPages batchSize : Nat) (pageResult : Nat → PageResult)
    (htp : 1 ≤ totalPages) (hbs : 1 ≤ batchSize) :
    ((batchRanges totalPages batchSize).map batchPages).flatten = List.range' 1 totalPages ∧
      (∀ r ∈ batchRanges totalPages batchSize, (batchPages r).length ≤ batchSize) ∧
      (∀ r ∈ (batchRanges totalPages batchSize).dropLast, (batchPages r).length = batchSize) ∧
      docStatsOf pageResult totalPages batchSize
        = batchStatsOf ((List.range' 1 totalPages).map pageResult) :=
  ⟨batchRanges_flatten totalPages batchSize hbs,
    batchLoop_len_le totalPages 0 totalPages batchSize,
    batchLoop_dropLast totalPages 0 totalPages batchSize hbs (by omega),
    docStats_eq_unbatched pageResult totalPages batchSize hbs⟩

/-- C9 witness: 250 pages with batch size 100 form exactly the three batches
1-100, 101-200 and 201-250 of sizes 100, 100 and 50, and they flatten to the
full page range (first conjunct obtained from the theorem itself). -/
theorem c9_batch_partitioning_witness :
    ((batchRanges 250 100).map batchPages).flatten = List.range' 1 250 ∧
      batchRanges 250 100 = [(1, 100), (101, 200), (201, 250)] ∧
      (batchRanges 250 100).map (fun r => (batchPages r).length) = [100, 100, 50] :=
  ⟨(c9_batch_partitioning 250 100 (fun _ => ⟨0, 0, false, 0, 0, 0, Tool.original⟩)
      (by decide) (by decide)).1,
    by decide, by decide⟩

end PdfCompressor
